import Mathlib

set_option maxRecDepth 8000

namespace TeacherQR

/-!
Shallow embedding of the dialogue-to-speech core of `local_tts.py`
(repository ssdgjs/TeacherQRcode): dialogue parsing, scene detection,
character profiling fallback, voice assignment, and the synthesis
backend chain with its fallback behaviour.

Text is modelled as `String` (with `List Char` for the character-level
scanning the Python code performs).  Python dicts keyed by speaker label
are modelled as association lists with update-or-append insertion
(`dinsert`), queried through `List.lookup`; Python dict iteration order
for the fixed literal tables matches insertion order, as in CPython 3.7+.
-/

/-! ### Character-level helpers (Python `str` semantics) -/

/-- Python whitespace recognised by `str.strip()` and by the regex class
`\s`: space, tab, newline, carriage return, vertical tab, form feed. -/
def pySpace (c : Char) : Bool :=
  c = ' ' || c = '\t' || c = '\n' || c = '\r' || c = '\x0b' || c = '\x0c'

/-- ASCII uppercase test, the regex class `[A-Z]`. -/
def isUpperAZ (c : Char) : Bool :=
  'A' ≤ c && c ≤ 'Z'

/-- ASCII lowercase test, the regex class `[a-z]`. -/
def isLowerAZ (c : Char) : Bool :=
  'a' ≤ c && c ≤ 'z'

/-- ASCII lowering, the effect of Python `str.lower()` on the ASCII
scripts and keyword tables this module works with. -/
def lowerC (c : Char) : Char :=
  if isUpperAZ c then Char.ofNat (c.toNat + 32) else c

/-- Python `str.strip()`: drop leading and trailing whitespace. -/
def pyStrip (l : List Char) : List Char :=
  ((l.dropWhile pySpace).reverse.dropWhile pySpace).reverse

/-- Python `str.split` on a single newline character.  The result is
never empty and none of the produced lines contains a newline. -/
def splitLines : List Char → List (List Char)
  | [] => [[]]
  | c :: rest =>
    if c = '\n' then [] :: splitLines rest
    else
      match splitLines rest with
      | [] => [[c]]
      | l :: ls => (c :: l) :: ls

/-- Boolean list-prefix test used by the substring check below. -/
def isPrefixL : List Char → List Char → Bool
  | [], _ => true
  | _ :: _, [] => false
  | a :: as, b :: bs => a == b && isPrefixL as bs

/-- Python substring containment `needle in hay` on character lists. -/
def containsSubL (needle : List Char) : List Char → Bool
  | [] => isPrefixL needle []
  | c :: rest => isPrefixL needle (c :: rest) || containsSubL needle rest

/-- Python substring containment `needle in hay` on strings. -/
def containsSub (needle hay : String) : Bool :=
  containsSubL needle.data hay.data

/-- Python `str.lower()` on a string (ASCII data). -/
def lowerStr (s : String) : String :=
  ⟨s.data.map lowerC⟩

/-! ### DialogueParser — `LocalTTSService._parse_dialogue` -/

/-- Model of `re.match(r'^([A-Z][a-z]*|M|W|A|B):\s*(.+)', line)` applied
to one line (which, coming from `splitLines`, contains no newline).  The
alternatives `M`, `W`, `A`, `B` are subsumed by `[A-Z][a-z]*`: when the
first alternative fails at the colon, a single-letter alternative would
need the very next character to be a colon, which only happens when the
maximal lowercase run is empty, a case the first alternative already
covers.  Group two is `\s*(.+)`: the greedy whitespace run backs off one
character when everything after the colon is whitespace, since `.`
matches every character of a newline-free line. -/
def matchMarker (line : List Char) : Option (List Char × List Char) :=
  match line with
  | [] => none
  | u :: rest =>
    if isUpperAZ u then
      let ls := rest.takeWhile isLowerAZ
      match rest.drop ls.length with
      | ':' :: tail =>
        let g := tail.dropWhile pySpace
        if g ≠ [] then some (u :: ls, g)
        else if tail ≠ [] then some (u :: ls, tail.drop (tail.length - 1))
        else none
      | _ => none
    else none

/-- One parsed turn is flushed only when both the speaker and the
collected text are truthy (`if current_speaker and current_text:`).
Collected lines are joined with single spaces (`' '.join(...)`). -/
def flushTurn (cs : Option (List Char)) (ct : List (List Char)) :
    List (List Char × List Char) :=
  match cs with
  | some sp => if sp.isEmpty || ct.isEmpty then [] else [(sp, List.intercalate [' '] ct)]
  | none => []

/-- The line-scanning loop of `_parse_dialogue`: blank lines are
skipped, a marker line flushes the open turn and opens a new one, and a
non-marker line is appended to the open turn when one exists and is
otherwise dropped. -/
def parseLoop : List (List Char) → Option (List Char) → List (List Char) →
    List (List Char × List Char)
  | [], cs, ct => flushTurn cs ct
  | l :: rest, cs, ct =>
    let line := pyStrip l
    if line.isEmpty then parseLoop rest cs ct
    else
      match matchMarker line with
      | some (sp, txt) => flushTurn cs ct ++ parseLoop rest (some sp) [txt]
      | none =>
        match cs with
        | some _ => parseLoop rest cs (ct ++ [line])
        | none => parseLoop rest cs ct

/-- `LocalTTSService._parse_dialogue` on raw character data. -/
def parseDialogue (script : List Char) : List (List Char × List Char) :=
  parseLoop (splitLines (pyStrip script)) none []

/-- `_parse_dialogue` at string level: ordered (speaker, utterance)
turns. -/
def parseDialogueS (script : String) : List (String × String) :=
  (parseDialogue script.data).map (fun p => (⟨p.1⟩, ⟨p.2⟩))

/-! ### ContextClassifier — `LocalTTSService._detect_context` and
`CONTEXT_PATTERNS` keyword sets -/

def schoolKeywords : List String :=
  ["class", "teacher", "student", "homework", "school", "exam", "lesson",
   "mr.", "ms.", "professor", "finish", "easy", "learn"]

def medicalKeywords : List String :=
  ["doctor", "patient", "medicine", "hospital", "pain", "symptom", "fever",
   "headache"]

def shoppingKeywords : List String :=
  ["buy", "sell", "price", "shop", "store", "how much", "dollars", "cashier"]

def familyKeywords : List String :=
  ["mom", "dad", "parent", "child", "son", "daughter", "home"]

def restaurantKeywords : List String :=
  ["order", "menu", "waiter", "waitress", "food", "drink", "table"]

/-- `sum(1 for kw in config["keywords"] if kw in script_lower)`: each
keyword counts at most once, by substring presence. -/
def sceneScore (kws : List String) (scriptLower : String) : Nat :=
  kws.countP (fun kw => containsSub kw scriptLower)

/-- `_detect_context`: iterate the scene table in its fixed insertion
order (school, medical, shopping, family, restaurant) and return the
first scene whose keyword count reaches its threshold (1 for school, 2
otherwise); default to "general". -/
def detectContext (script : String) : String :=
  let sl := lowerStr script
  if sceneScore schoolKeywords sl ≥ 1 then "school"
  else if sceneScore medicalKeywords sl ≥ 2 then "medical"
  else if sceneScore shoppingKeywords sl ≥ 2 then "shopping"
  else if sceneScore familyKeywords sl ≥ 2 then "family"
  else if sceneScore restaurantKeywords sl ≥ 2 then "restaurant"
  else "general"

/-! ### Voice tables and dict operations -/

/-- The module-level `SPEAKER_VOICES` table. -/
def SPEAKER_VOICES : List (String × String) :=
  [("M_Adult_Deep", "en-US-GuyNeural"),
   ("M_Adult_Warm", "en-US-ChristopherNeural"),
   ("M_Adult_Professional", "en-US-BrianNeural"),
   ("W_Adult_Calm", "en-US-AriaNeural"),
   ("W_Adult_Friendly", "en-US-JennyNeural"),
   ("W_Adult_Professional", "en-US-MichelleNeural"),
   ("M_Young_Casual", "en-US-EricNeural"),
   ("M_Young_Energetic", "en-US-JasonNeural"),
   ("W_Young_Casual", "en-US-MichelleNeural"),
   ("W_Young_Sweet", "en-US-AriaNeural")]

/-- `SPEAKER_VOICES[k]`.  The source indexes the dict directly; the two
shopping/restaurant accesses to the key "M_Adult_Friendly" are absent
from the table and would raise `KeyError` in the source — no claim
evaluates those entries, and the default "" stands in for the raised
lookup there. -/
def sv (k : String) : String :=
  (SPEAKER_VOICES.lookup k).getD ""

/-- Python dict assignment `d[k] = v`: update the existing entry in
place, else append. -/
def dinsert : List (String × String) → String → String → List (String × String)
  | [], k, v => [(k, v)]
  | (k', v') :: rest, k, v =>
    if k' == k then (k', v) :: rest else (k', v') :: dinsert rest k v

/-! ### CharacterProfiler — AI profiles and
`LocalTTSService._assign_voices_by_profiles` -/

/-- One accepted AI speaker profile.  The validation step of
`_analyze_characters_with_ai` guarantees age and gender are present, but
`map_profile_to_voice` still reads every field with `dict.get`
defaults, so all four fields are optional here. -/
structure Profile where
  age : Option String
  gender : Option String
  role : Option String
  emotion : Option String
deriving DecidableEq

/-- The inner `map_profile_to_voice` of `_assign_voices_by_profiles`:
age/gender select the base category, emotion selects professional
variants for adults.  The role field is read (`profile.get("role", "")`)
but never consulted afterwards. -/
def mapProfileToVoice (p : Profile) : String :=
  let age := p.age.getD "adult"
  let gender := p.gender.getD "male"
  let _role := p.role.getD ""
  let emotion := p.emotion.getD "casual"
  if age = "child" || age = "teenager" || age = "young_adult" then
    if gender = "male" then sv "M_Young_Casual" else sv "W_Young_Casual"
  else
    if gender = "male" then
      if emotion = "professional" || emotion = "formal" then
        sv "M_Adult_Professional"
      else sv "M_Adult_Warm"
    else
      if emotion = "professional" || emotion = "formal" then
        sv "W_Adult_Professional"
      else sv "W_Adult_Friendly"

/-- `_assign_voices_by_profiles`: one dict entry per profiled speaker. -/
def assignVoicesByProfiles (profiles : List (String × Profile)) :
    List (String × String) :=
  profiles.foldl (fun d p => dinsert d p.1 (mapProfileToVoice p.2)) []

/-! ### Rule-based voice assignment —
`LocalTTSService._assign_voices_by_context` -/

/-- The `teacher_speaking_patterns` list of the school branch. -/
def teacherSpeakingPatterns : List String :=
  ["good morning, class", "good afternoon, class", "good evening, class",
   "let me explain", "let\x27s look at", "pay attention", "listen carefully",
   "you should", "you need to", "i want you to", "turn to", "open your",
   "today we\x27ll", "today we are", "we\x27ll learn", "we are going to"]

/-- The `student_talking_about_teacher` list of the school branch. -/
def studentTalkingAboutTeacher : List String :=
  ["mr. ", "ms. ", "mrs. ", "professor ", "my teacher", "our teacher",
   "my professor", "our professor"]

/-- `any(pattern in text for pattern in pats)`. -/
def hasAnyPattern (pats : List String) (t : String) : Bool :=
  pats.any (fun p => containsSub p t)

/-- `' '.join(text for _, text in dialogue_parts).lower()`. -/
def joinTextsLower (parts : List (String × String)) : String :=
  lowerStr ⟨List.intercalate [' '] (parts.map (fun p => p.2.data))⟩

/-- The per-speaker young-voice choice repeated in the school branches:
M/Man/Boy casual young male, W/Woman/Girl casual young female, anything
else casual young male. -/
def youngVoiceFor (s : String) : String :=
  if s = "M" || s = "Man" || s = "Boy" then sv "M_Young_Casual"
  else if s = "W" || s = "Woman" || s = "Girl" then sv "W_Young_Casual"
  else sv "M_Young_Casual"

/-- The per-speaker professional-voice choice of the teacher branch. -/
def profVoiceFor (s : String) : String :=
  if s = "M" || s = "Man" then sv "M_Adult_Professional"
  else if s = "W" || s = "Woman" then sv "W_Adult_Professional"
  else sv "M_Adult_Professional"

/-- The medical-branch per-speaker choice. -/
def medicalVoiceFor (s : String) : String :=
  if s = "M" || s = "Man" then sv "M_Adult_Professional"
  else if s = "W" || s = "Woman" then sv "W_Adult_Friendly"
  else sv "M_Adult_Warm"

/-- The shopping-branch per-speaker choice (the male entry indexes the
missing key "M_Adult_Friendly", see `sv`). -/
def shoppingVoiceFor (s : String) : String :=
  if s = "M" || s = "Man" then sv "M_Adult_Friendly"
  else if s = "W" || s = "Woman" then sv "W_Adult_Friendly"
  else sv "W_Adult_Friendly"

/-- The restaurant-branch per-speaker choice (same missing male key). -/
def restaurantVoiceFor (s : String) : String :=
  if s = "M" || s = "Man" then sv "M_Adult_Friendly"
  else if s = "W" || s = "Woman" then sv "W_Adult_Friendly"
  else sv "W_Adult_Friendly"

/-- The general-branch per-speaker choice. -/
def generalVoiceFor (s : String) : String :=
  if s = "M" || s = "Man" || s = "Boy" then sv "M_Adult_Warm"
  else if s = "W" || s = "Woman" || s = "Girl" then sv "W_Adult_Friendly"
  else sv "M_Adult_Warm"

/-- `for speaker in speakers: d[speaker] = f(speaker)`. -/
def assignForAll (f : String → String) : List String → List (String × String) →
    List (String × String)
  | [], d => d
  | s :: rest, d => assignForAll f rest (dinsert d s (f s))

/-- The per-turn loop of the teacher sub-branch: a turn whose text
contains a teacher-speaking pattern marks its speaker as the teacher
(overwriting any earlier student assignment); otherwise a speaker not
yet assigned gets a student voice. -/
def teacherLoop : List (String × String) → List (String × String) →
    List (String × String)
  | [], d => d
  | (s, t) :: rest, d =>
    if hasAnyPattern teacherSpeakingPatterns (lowerStr t) then
      teacherLoop rest (dinsert d s (profVoiceFor s))
    else if (d.lookup s).isNone then
      teacherLoop rest (dinsert d s (youngVoiceFor s))
    else teacherLoop rest d

/-- The indexed loop of the family branch: the first turn speaker is
treated as a parent, later speakers as child or other parent depending
on their own words. -/
def familyLoop : List (String × String) → Nat → List (String × String) →
    List (String × String)
  | [], _, d => d
  | (s, t) :: rest, i, d =>
    if i = 0 then familyLoop rest (i + 1) (dinsert d s (sv "M_Adult_Warm"))
    else if hasAnyPattern ["mom", "dad", "parent"] (lowerStr t) then
      familyLoop rest (i + 1) (dinsert d s (sv "W_Young_Casual"))
    else familyLoop rest (i + 1) (dinsert d s (sv "W_Adult_Friendly"))

/-- Python truthiness of the optional `custom_voice_map` argument:
`None` and the empty dict are falsy. -/
def isTruthyMap : Option (List (String × String)) → Bool
  | none => false
  | some [] => false
  | some (_ :: _) => true

/-- Enumeration of the distinct speaker labels.  The source computes
`speakers = list(set(speaker for speaker, _ in dialogue_parts))`; CPython
set iteration order over strings is arbitrary (hash randomised), so the
embedding takes the enumeration as an explicit argument constrained by
this predicate: duplicate-free and carrying exactly the labels that
occur in the parsed turns. -/
@[reducible]
def validSpeakerOrder (parts : List (String × String)) (order : List String) : Prop :=
  order.Nodup ∧ (∀ s ∈ order, s ∈ parts.map Prod.fst) ∧
    (∀ s ∈ parts.map Prod.fst, s ∈ order)

/-- `_assign_voices_by_context`.  A truthy custom map is returned
unchanged before anything else is computed; otherwise the scene selects
one of the fixed rule branches. -/
def assignVoicesByContext (parts : List (String × String)) (context : String)
    (customVoiceMap : Option (List (String × String))) (speakers : List String) :
    List (String × String) :=
  if isTruthyMap customVoiceMap then customVoiceMap.getD []
  else if context = "school" then
    let fullText := joinTextsLower parts
    if hasAnyPattern studentTalkingAboutTeacher fullText &&
        !hasAnyPattern teacherSpeakingPatterns fullText then
      assignForAll youngVoiceFor speakers []
    else if hasAnyPattern teacherSpeakingPatterns fullText then
      teacherLoop parts []
    else assignForAll youngVoiceFor speakers []
  else if context = "medical" then assignForAll medicalVoiceFor speakers []
  else if context = "shopping" then assignForAll shoppingVoiceFor speakers []
  else if context = "family" then familyLoop parts 0 []
  else if context = "restaurant" then assignForAll restaurantVoiceFor speakers []
  else assignForAll generalVoiceFor speakers []

/-- The voice-resolution step of `dialogue_to_speech`: a successful
(non-empty) AI profile analysis is mapped through
`_assign_voices_by_profiles`; otherwise the rule-based
`_assign_voices_by_context` runs with the caller-supplied map. -/
def resolveSpeakerVoices (aiProfiles : Option (List (String × Profile)))
    (parts : List (String × String)) (context : String)
    (voiceMap : Option (List (String × String))) (speakers : List String) :
    List (String × String) :=
  match aiProfiles with
  | some ps => assignVoicesByProfiles ps
  | none => assignVoicesByContext parts context voiceMap speakers

/-! ### Pipeline routing — `dialogue_to_speech` -/

/-- The synthesis plan chosen by `dialogue_to_speech` before any backend
runs: either the single-voice plain `text_to_speech` path, or the
multi-speaker path with a resolved voice assignment. -/
inductive SynthesisPlan where
  | plainTTS (text : String)
  | multiSpeaker (parts : List (String × String)) (voices : List (String × String))
deriving DecidableEq

/-- `dialogue_to_speech` up to the point where a backend is invoked:
an empty parse short-circuits to `text_to_speech(script, ...)` before
context detection and voice assignment. -/
def dialogueToSpeechPlan (script : String)
    (aiProfiles : Option (List (String × Profile)))
    (voiceMap : Option (List (String × String))) (speakers : List String) :
    SynthesisPlan :=
  let parts := parseDialogueS script
  if parts.isEmpty then .plainTTS script
  else
    .multiSpeaker parts
      (resolveSpeakerVoices aiProfiles parts (detectContext script) voiceMap speakers)

/-! ### Generative backend speaker embeddings —
`_generate_with_chatts` -/

/-- The embedding-assignment loop: `torch.manual_seed(1000 + i * 1000)`
followed by `chat.sample_random_speaker()` is a deterministic function
of the seed, so the embedding is identified with its seed. -/
def speakerEmbs : List String → Nat → List (String × Nat)
  | [], _ => []
  | s :: rest, i => (s, 1000 + i * 1000) :: speakerEmbs rest (i + 1)

/-- Per-turn embedding choice
`speaker_embs.get(speaker, speaker_embs[speakers[0]])`.  In the source
the default expression indexes the first enumerated speaker and would
raise only on an empty speaker list, which the dialogue path never
produces; `headD`/`getD` stand in for those raising accesses. -/
def chattsEmbFor (order : List String) (speaker : String) : Nat :=
  let embs := speakerEmbs order 0
  (embs.lookup speaker).getD ((embs.lookup (order.headD "")).getD 0)

/-- The embedding actually used for each turn, in turn order. -/
def chattsEmbSeq (parts : List (String × String)) (order : List String) :
    List Nat :=
  parts.map (fun p => chattsEmbFor order p.1)

/-! ### Backend chain — per-turn synthesis and fallback -/

/-- Outcome of `chat.infer` on one turn: an exception, an empty result
(`wavs` empty or `wavs[0]` None), or a waveform (abstracted to an id). -/
inductive TurnOut where
  | err
  | empty
  | ok (a : Nat)

/-- Which backend produced a segment. -/
inductive BackendTag where
  | chatts
  | edge
deriving DecidableEq

/-- Outcome of one dialogue job: an assembled ordered segment list
(each segment tagged with the backend that rendered it), or failure. -/
inductive JobOutcome where
  | done (segs : List (BackendTag × Nat))
  | failed
deriving DecidableEq

/-- The ChatTTS per-turn loop of `_generate_with_chatts`: an exception
aborts the whole loop (and every collected segment is discarded), an
empty result is skipped with a warning, a waveform is appended. -/
def chattsLoop : List (String × String) → Nat → (Nat → TurnOut) →
    Except Unit (List Nat)
  | [], _, _ => .ok []
  | _ :: rest, i, f =>
    match f i with
    | .err => .error ()
    | .empty => chattsLoop rest (i + 1) f
    | .ok a => (chattsLoop rest (i + 1) f).map (fun segs => a :: segs)

/-- The edge-tts per-turn loop of `_generate_with_edge_tts`: each turn
produces one temporary segment; the first failing turn deletes every
temporary file and fails the job (there is no further backend). -/
def edgeLoop : List (String × String) → Nat → (Nat → Bool) → Option (List Nat)
  | [], _, _ => some []
  | _ :: rest, i, g =>
    if g i then (edgeLoop rest (i + 1) g).map (fun segs => i :: segs)
    else none

/-- `_generate_with_edge_tts` on the full turn list. -/
def generateWithEdgeTts (parts : List (String × String)) (g : Nat → Bool) :
    JobOutcome :=
  match edgeLoop parts 0 g with
  | some segs => .done (segs.map (fun i => (BackendTag.edge, i)))
  | none => .failed

/-- `_generate_with_chatts` with its fallback: an exception anywhere in
the ChatTTS path (including the explicit raise when no segment at all
was produced) restarts the complete turn list on edge-tts. -/
def generateWithChatts (parts : List (String × String)) (f : Nat → TurnOut)
    (g : Nat → Bool) : JobOutcome :=
  match chattsLoop parts 0 f with
  | .error _ => generateWithEdgeTts parts g
  | .ok segs =>
    if segs.isEmpty then generateWithEdgeTts parts g
    else .done (segs.map (fun a => (BackendTag.chatts, a)))

/-! ### Networked-TTS voice defaults — `_generate_with_edge_tts` -/

/-- `speaker_voices.get(speaker, "en-US-AriaNeural")`. -/
def edgeVoiceFor (voices : List (String × String)) (s : String) : String :=
  (voices.lookup s).getD "en-US-AriaNeural"

/-! ## Helper lemmas -/

theorem lookup_cons_self {β : Type} (k : String) (v : β) (rest : List (String × β)) :
    List.lookup k ((k, v) :: rest) = some v := by
  simp [List.lookup]

theorem lookup_cons_ne {β : Type} (a k : String) (v : β) (rest : List (String × β))
    (h : k ≠ a) : List.lookup k ((a, v) :: rest) = List.lookup k rest := by
  have hb : (k == a) = false := by simpa using h
  simp [List.lookup, hb]

theorem lookup_dinsert_self (d : List (String × String)) (k v : String) :
    (dinsert d k v).lookup k = some v := by
  induction d with
  | nil => simp [dinsert, List.lookup]
  | cons p rest ih =>
    obtain ⟨a, b⟩ := p
    by_cases h : a = k
    · subst h
      simp only [dinsert, beq_self_eq_true, if_true]
      exact lookup_cons_self _ v rest
    · simp only [dinsert]
      rw [if_neg (by simpa using h)]
      rw [lookup_cons_ne a k b (dinsert rest k v) (Ne.symm h)]
      exact ih

theorem lookup_dinsert_ne (d : List (String × String)) (k v k' : String)
    (h : k' ≠ k) : (dinsert d k v).lookup k' = d.lookup k' := by
  induction d with
  | nil =>
    simp only [dinsert]
    rw [lookup_cons_ne k k' v [] h]
  | cons p rest ih =>
    obtain ⟨a, b⟩ := p
    by_cases ha : a = k
    · subst ha
      simp only [dinsert, beq_self_eq_true, if_true]
      by_cases hk' : k' = a
      · subst hk'
        exact absurd rfl h
      · rw [lookup_cons_ne a k' v rest hk', lookup_cons_ne a k' b rest hk']
    · simp only [dinsert]
      rw [if_neg (by simpa using ha)]
      by_cases hk' : k' = a
      · subst hk'
        rw [lookup_cons_self, lookup_cons_self]
      · rw [lookup_cons_ne a k' b (dinsert rest k v) hk',
          lookup_cons_ne a k' b rest hk']
        exact ih

theorem lookup_assignForAll (f : String → String) :
    ∀ (sl : List String) (d : List (String × String)) (s : String),
      (assignForAll f sl d).lookup s =
        if s ∈ sl then some (f s) else d.lookup s := by
  intro sl
  induction sl with
  | nil => intro d s; simp [assignForAll]
  | cons a rest ih =>
    intro d s
    simp only [assignForAll]
    rw [ih]
    by_cases hr : s ∈ rest
    · simp [hr]
    · by_cases ha : s = a
      · subst ha
        simp [hr, lookup_dinsert_self]
      · simp [hr, ha, lookup_dinsert_ne d a (f a) s ha]

theorem lookup_teacherLoop :
    ∀ (ps : List (String × String)) (d : List (String × String)) (s : String),
      (teacherLoop ps d).lookup s =
        if ps.any (fun p => p.1 == s &&
            hasAnyPattern teacherSpeakingPatterns (lowerStr p.2)) then
          some (profVoiceFor s)
        else if (d.lookup s).isSome then d.lookup s
        else if ps.any (fun p => p.1 == s) then some (youngVoiceFor s)
        else none := by
  intro ps
  induction ps with
  | nil =>
    intro d s
    simp only [teacherLoop, List.any_nil, Bool.false_eq_true, if_false]
    cases hq : d.lookup s with
    | none => simp [hq]
    | some v => simp [hq]
  | cons p rest ih =>
    intro d s
    obtain ⟨a, t⟩ := p
    by_cases hpat : hasAnyPattern teacherSpeakingPatterns (lowerStr t) = true
    · simp only [teacherLoop, hpat, if_true]
      rw [ih]
      by_cases has : a = s
      · subst has
        simp only [List.any_cons, hpat, beq_self_eq_true, Bool.true_and,
          Bool.and_true, Bool.true_or, if_true]
        by_cases hr : rest.any (fun p => p.1 == a &&
            hasAnyPattern teacherSpeakingPatterns (lowerStr p.2)) = true
        · simp [hr]
        · simp [hr, lookup_dinsert_self]
      · have hbeq : (a == s) = false := by simpa using has
        rw [lookup_dinsert_ne d a (profVoiceFor a) s (Ne.symm has)]
        simp only [List.any_cons, hbeq, Bool.false_and, Bool.false_or]
    · have hpat' : hasAnyPattern teacherSpeakingPatterns (lowerStr t) = false := by
        simpa using hpat
      by_cases hd : (d.lookup a).isNone = true
      · simp only [teacherLoop, hpat', Bool.false_eq_true, if_false, hd, if_true]
        rw [ih]
        have hdn : d.lookup a = none := by
          cases hq : d.lookup a with
          | none => rfl
          | some v => rw [hq] at hd; simp at hd
        by_cases has : a = s
        · subst has
          simp only [List.any_cons, hpat', beq_self_eq_true, Bool.true_and,
            Bool.and_false, Bool.false_or, Bool.true_or, hdn]
          by_cases hr : rest.any (fun p => p.1 == a &&
              hasAnyPattern teacherSpeakingPatterns (lowerStr p.2)) = true
          · simp [hr]
          · simp [hr, lookup_dinsert_self, hdn]
        · have hbeq : (a == s) = false := by simpa using has
          rw [lookup_dinsert_ne d a (youngVoiceFor a) s (Ne.symm has)]
          simp only [List.any_cons, hbeq, Bool.false_and, Bool.and_false,
            Bool.false_or, hdn]
      · have hds : (d.lookup a).isSome = true := by
          cases hq : d.lookup a with
          | none => rw [hq] at hd; simp at hd
          | some v => rfl
        have hd' : (d.lookup a).isNone = false := by
          cases hq : d.lookup a with
          | none => rw [hq] at hd; simp at hd
          | some v => rfl
        simp only [teacherLoop, hpat', Bool.false_eq_true, if_false, hd']
        rw [ih]
        by_cases has : a = s
        · subst has
          simp only [List.any_cons, beq_self_eq_true, Bool.true_and, hpat',
            Bool.and_false, Bool.false_or, Bool.true_or, hds, if_true]
        · have hbeq : (a == s) = false := by simpa using has
          simp only [List.any_cons, hbeq, hpat', Bool.false_and, Bool.and_false,
            Bool.false_or]

theorem lookup_speakerEmbs_get :
    ∀ (order : List String) (n : Nat), order.Nodup →
      ∀ (i : Nat) (hi : i < order.length),
        (speakerEmbs order n).lookup (order.get ⟨i, hi⟩) =
          some (1000 + (n + i) * 1000) := by
  intro order
  induction order with
  | nil => intro n _ i hi; simp at hi
  | cons a rest ih =>
    intro n hnd i hi
    cases i with
    | zero =>
      simp only [speakerEmbs, List.get]
      rw [lookup_cons_self]
      simp
    | succ j =>
      have hj : j < rest.length := by simpa using hi
      have hmem : rest.get ⟨j, hj⟩ ∈ rest := List.get_mem rest j hj
      have hne : rest.get ⟨j, hj⟩ ≠ a := by
        intro hcon
        exact (List.nodup_cons.mp hnd).1 (hcon ▸ hmem)
      simp only [speakerEmbs, List.get]
      rw [lookup_cons_ne a _ _ _ hne]
      rw [ih (n + 1) (List.nodup_cons.mp hnd).2 j hj]
      congr 1
      ring

theorem lookup_speakerEmbs_mem :
    ∀ (order : List String) (n : Nat) (s : String), s ∈ order →
      ((speakerEmbs order n).lookup s).isSome = true := by
  intro order
  induction order with
  | nil => intro n s hs; simp at hs
  | cons a rest ih =>
    intro n s hs
    by_cases h : s = a
    · subst h
      simp only [speakerEmbs]
      rw [lookup_cons_self]
      rfl
    · have hrest : s ∈ rest := by
        cases List.mem_cons.mp hs with
        | inl h' => exact absurd h' h
        | inr h' => exact h'
      simp only [speakerEmbs]
      rw [lookup_cons_ne a s _ _ h]
      exact ih (n + 1) s hrest

theorem drop_length_takeWhile {α : Type} (p : α → Bool) :
    ∀ (l : List α), l.drop (l.takeWhile p).length = l.dropWhile p := by
  intro l
  induction l with
  | nil => simp
  | cons c cs ih =>
    by_cases h : p c = true
    · simpa [List.takeWhile_cons, List.dropWhile_cons, h] using ih
    · simp [List.takeWhile_cons, List.dropWhile_cons, h]

theorem takeWhile_lower_append :
    ∀ (ls rest : List Char), ls.all isLowerAZ = true →
      (ls ++ ':' :: rest).takeWhile isLowerAZ = ls := by
  intro ls
  induction ls with
  | nil =>
    intro rest _
    have hc : isLowerAZ ':' = false := by decide
    simp [List.takeWhile_cons, hc]
  | cons c cs ih =>
    intro rest h
    have hc : isLowerAZ c = true := by
      simp only [List.all_cons, Bool.and_eq_true] at h
      exact h.1
    have hcs : cs.all isLowerAZ = true := by
      simp only [List.all_cons, Bool.and_eq_true] at h
      exact h.2
    simp [List.takeWhile_cons, hc, ih rest hcs]

theorem all_takeWhile {α : Type} (p : α → Bool) :
    ∀ (l : List α), (l.takeWhile p).all p = true := by
  intro l
  induction l with
  | nil => simp
  | cons c cs ih =>
    by_cases h : p c = true
    · simp [List.takeWhile_cons, h, ih]
    · simp [List.takeWhile_cons, h]

theorem matchMarker_eq_some_iff (line : List Char) :
    (∃ sp txt, matchMarker line = some (sp, txt)) ↔
    (∃ u ls rest, isUpperAZ u = true ∧ ls.all isLowerAZ = true ∧ rest ≠ [] ∧
      line = u :: (ls ++ ':' :: rest)) := by
  constructor
  · rintro ⟨sp, txt, h⟩
    cases line with
    | nil => simp [matchMarker] at h
    | cons u rest0 =>
      by_cases hu : isUpperAZ u = true
      · simp only [matchMarker, hu, if_true] at h
        split at h
        · rename_i tail heq
          have hdw : rest0.dropWhile isLowerAZ = ':' :: tail := by
            rw [← drop_length_takeWhile isLowerAZ rest0]
            exact heq
          have hsplit : rest0 = rest0.takeWhile isLowerAZ ++ ':' :: tail := by
            conv_lhs => rw [← List.takeWhile_append_dropWhile (p := isLowerAZ) (l := rest0)]
            rw [hdw]
          refine ⟨u, rest0.takeWhile isLowerAZ, tail, hu,
            all_takeWhile isLowerAZ rest0, ?_, by rw [← hsplit]⟩
          intro ht
          rw [ht] at h
          simp at h
        · simp at h
      · simp only [matchMarker, hu, Bool.false_eq_true, if_false] at h
        simp at h
  · rintro ⟨u, ls, rest, hu, hls, hr, rfl⟩
    simp only [matchMarker, hu, if_true]
    rw [takeWhile_lower_append ls rest hls, List.drop_left]
    by_cases hg : (':' :: rest : List Char).tail.dropWhile pySpace ≠ []
    · exact ⟨u :: ls, rest.dropWhile pySpace, by
        simp only []
        rw [if_pos (by simpa using hg)]⟩
    · refine ⟨u :: ls, rest.drop (rest.length - 1), ?_⟩
      simp only []
      rw [if_neg (by simpa using hg), if_pos hr]

theorem parseLoop_no_marker :
    ∀ (lines : List (List Char)),
      (∀ l ∈ lines, matchMarker (pyStrip l) = none) →
      parseLoop lines none [] = [] := by
  intro lines
  induction lines with
  | nil => intro _; simp [parseLoop, flushTurn]
  | cons l rest ih =>
    intro h
    have hl := h l (List.mem_cons_self l rest)
    have hrest : ∀ l' ∈ rest, matchMarker (pyStrip l') = none :=
      fun l' hl' => h l' (List.mem_cons_of_mem l hl')
    simp only [parseLoop]
    by_cases he : (pyStrip l).isEmpty = true
    · simp [he, ih hrest]
    · simp [he, hl, ih hrest]

theorem edgeLoop_eq_range :
    ∀ (parts : List (String × String)) (i : Nat) (g : Nat → Bool)
      (segs : List Nat),
      edgeLoop parts i g = some segs → segs = List.range' i parts.length := by
  intro parts
  induction parts with
  | nil =>
    intro i g segs h
    simp only [edgeLoop, Option.some.injEq] at h
    simp [← h, List.range']
  | cons p rest ih =>
    intro i g segs h
    simp only [edgeLoop] at h
    by_cases hg : g i = true
    · rw [if_pos hg] at h
      cases hrec : edgeLoop rest (i + 1) g with
      | none => rw [hrec] at h; simp at h
      | some s =>
        rw [hrec] at h
        simp only [Option.map_some'] at h
        have hs := ih (i + 1) g s hrec
        have : i :: s = segs := by simpa using h
        rw [← this, hs]
        simp [List.range']
    · rw [if_neg hg] at h
      simp at h

theorem chattsLoop_eq_filterMap :
    ∀ (parts : List (String × String)) (i : Nat) (f : Nat → TurnOut)
      (raw : List Nat),
      chattsLoop parts i f = .ok raw →
      raw = (List.range' i parts.length).filterMap
        (fun j => match f j with | TurnOut.ok a => some a | _ => none) := by
  intro parts
  induction parts with
  | nil =>
    intro i f raw h
    simp only [chattsLoop, Except.ok.injEq] at h
    simp [← h, List.range']
  | cons p rest ih =>
    intro i f raw h
    simp only [chattsLoop] at h
    cases hf : f i with
    | err => rw [hf] at h; simp at h
    | empty =>
      rw [hf] at h
      have hs := ih (i + 1) f raw h
      rw [hs]
      simp [List.range', List.filterMap_cons, hf]
    | ok a =>
      rw [hf] at h
      cases hrec : chattsLoop rest (i + 1) f with
      | error e => rw [hrec] at h; simp [Except.map] at h
      | ok s =>
        rw [hrec] at h
        simp only [Except.map, Except.ok.injEq] at h
        have hs := ih (i + 1) f s hrec
        rw [← h, hs]
        simp [List.range', List.filterMap_cons, hf]

theorem chattsEmbSeq_getD (parts : List (String × String)) (order : List String)
    (k : Nat) (hk : k < parts.length) :
    (chattsEmbSeq parts order).getD k 0 =
      chattsEmbFor order (parts.get ⟨k, hk⟩).1 := by
  simp [chattsEmbSeq, List.getD, List.getElem?_map, List.getElem?_eq_getElem hk]

theorem edgeDone_tags (parts : List (String × String)) (g : Nat → Bool)
    (segs : List (BackendTag × Nat)) (h : generateWithEdgeTts parts g = .done segs) :
    ∀ x ∈ segs, x.1 = BackendTag.edge := by
  unfold generateWithEdgeTts at h
  cases hel : edgeLoop parts 0 g with
  | none => rw [hel] at h; simp at h
  | some s =>
    rw [hel] at h
    simp only [JobOutcome.done.injEq] at h
    intro x hx
    rw [← h] at hx
    obtain ⟨i, _, rfl⟩ := List.mem_map.mp hx
    rfl

theorem edgeDone_length (parts : List (String × String)) (g : Nat → Bool)
    (segs : List (BackendTag × Nat)) (h : generateWithEdgeTts parts g = .done segs) :
    segs.length = parts.length := by
  unfold generateWithEdgeTts at h
  cases hel : edgeLoop parts 0 g with
  | none => rw [hel] at h; simp at h
  | some s =>
    rw [hel] at h
    simp only [JobOutcome.done.injEq] at h
    rw [← h]
    simp [edgeLoop_eq_range parts 0 g s hel]

/-! ## Claim theorems -/

/-- C1 (corrected): caller overrides take effect only on the rule-based
path.  When AI profiling succeeds, the caller-supplied voice map is
ignored entirely and every label resolves from its profile; when AI
profiling fails and a non-empty override map is supplied,
`_assign_voices_by_context` returns that map wholesale, so overridden
labels get exactly their override while labels without an override are
left unassigned (and fall to the render-time default) rather than
resolving through the scene rules. -/
theorem C1_override_precedence :
    (∀ (ps : List (String × Profile)) (parts : List (String × String))
       (ctx : String) (vm : Option (List (String × String)))
       (speakers : List String),
       resolveSpeakerVoices (some ps) parts ctx vm speakers =
         assignVoicesByProfiles ps) ∧
    (∀ (parts : List (String × String)) (ctx : String)
       (m : List (String × String)) (speakers : List String), m ≠ [] →
       resolveSpeakerVoices none parts ctx (some m) speakers = m) := by
  constructor
  · intro ps parts ctx vm speakers
    rfl
  · intro parts ctx m speakers hm
    cases m with
    | nil => exact absurd rfl hm
    | cons a t =>
      simp [resolveSpeakerVoices, assignVoicesByContext, isTruthyMap]

/-- Witness for C1: a concrete rule-path job where the override map is
returned as-is. -/
theorem C1_override_precedence_witness :
    resolveSpeakerVoices none [("M", "hi")] "general"
      (some [("M", "voiceX")]) ["M"] = [("M", "voiceX")] :=
  C1_override_precedence.2 [("M", "hi")] "general" [("M", "voiceX")] ["M"]
    (by decide)

/-- Counterexample for C1 as stated: with a successful AI profile for M
and the explicit override `M ↦ voiceX`, M resolves to the profile voice
`en-US-EricNeural`, not to the override. -/
theorem C1_override_precedence_counterexample :
    (resolveSpeakerVoices
        (some [("M", ⟨some "young_adult", some "male", some "student",
          some "casual"⟩)])
        [("M", "hi"), ("W", "ok")] "general" (some [("M", "voiceX")])
        ["M", "W"]).lookup "M" = some "en-US-EricNeural" ∧
      ("en-US-EricNeural" : String) ≠ "voiceX" := by
  decide

/-- C2 (corrected): the classifier does not pick the highest-scoring
scene; it returns the first scene in the fixed order school, medical,
shopping, family, restaurant whose count of present keywords (each
keyword counted once, by substring containment in the lowercased
script) reaches its threshold — 1 for school, 2 for every other scene —
and "general" when no scene reaches its threshold. -/
theorem C2_scene_first_match (script : String) :
    (detectContext script = "school" ∧
      1 ≤ sceneScore schoolKeywords (lowerStr script)) ∨
    (detectContext script = "medical" ∧
      sceneScore schoolKeywords (lowerStr script) < 1 ∧
      2 ≤ sceneScore medicalKeywords (lowerStr script)) ∨
    (detectContext script = "shopping" ∧
      sceneScore schoolKeywords (lowerStr script) < 1 ∧
      sceneScore medicalKeywords (lowerStr script) < 2 ∧
      2 ≤ sceneScore shoppingKeywords (lowerStr script)) ∨
    (detectContext script = "family" ∧
      sceneScore schoolKeywords (lowerStr script) < 1 ∧
      sceneScore medicalKeywords (lowerStr script) < 2 ∧
      sceneScore shoppingKeywords (lowerStr script) < 2 ∧
      2 ≤ sceneScore familyKeywords (lowerStr script)) ∨
    (detectContext script = "restaurant" ∧
      sceneScore schoolKeywords (lowerStr script) < 1 ∧
      sceneScore medicalKeywords (lowerStr script) < 2 ∧
      sceneScore shoppingKeywords (lowerStr script) < 2 ∧
      sceneScore familyKeywords (lowerStr script) < 2 ∧
      2 ≤ sceneScore restaurantKeywords (lowerStr script)) ∨
    (detectContext script = "general" ∧
      sceneScore schoolKeywords (lowerStr script) < 1 ∧
      sceneScore medicalKeywords (lowerStr script) < 2 ∧
      sceneScore shoppingKeywords (lowerStr script) < 2 ∧
      sceneScore familyKeywords (lowerStr script) < 2 ∧
      sceneScore restaurantKeywords (lowerStr script) < 2) := by
  by_cases h1 : sceneScore schoolKeywords (lowerStr script) ≥ 1
  · exact Or.inl ⟨by simp [detectContext, h1], h1⟩
  · have h1' : sceneScore schoolKeywords (lowerStr script) < 1 := by omega
    by_cases h2 : sceneScore medicalKeywords (lowerStr script) ≥ 2
    · exact Or.inr (Or.inl ⟨by simp [detectContext, h1, h2], h1', h2⟩)
    · have h2' : sceneScore medicalKeywords (lowerStr script) < 2 := by omega
      by_cases h3 : sceneScore shoppingKeywords (lowerStr script) ≥ 2
      · exact Or.inr (Or.inr (Or.inl
          ⟨by simp [detectContext, h1, h2, h3], h1', h2', h3⟩))
      · have h3' : sceneScore shoppingKeywords (lowerStr script) < 2 := by omega
        by_cases h4 : sceneScore familyKeywords (lowerStr script) ≥ 2
        · exact Or.inr (Or.inr (Or.inr (Or.inl
            ⟨by simp [detectContext, h1, h2, h3, h4], h1', h2', h3', h4⟩)))
        · have h4' : sceneScore familyKeywords (lowerStr script) < 2 := by omega
          by_cases h5 : sceneScore restaurantKeywords (lowerStr script) ≥ 2
          · exact Or.inr (Or.inr (Or.inr (Or.inr (Or.inl
              ⟨by simp [detectContext, h1, h2, h3, h4, h5],
                h1', h2', h3', h4', h5⟩))))
          · have h5' : sceneScore restaurantKeywords (lowerStr script) < 2 := by
              omega
            exact Or.inr (Or.inr (Or.inr (Or.inr (Or.inr
              ⟨by simp [detectContext, h1, h2, h3, h4, h5],
                h1', h2', h3', h4', h5'⟩))))

/-- Counterexample for C2 as stated: this script scores 1 on school and
3 on medical (both clearing their thresholds), so the highest-scoring
thresholded scene is medical, yet the classifier returns "school"
because school comes first in the iteration order. -/
theorem C2_scene_first_match_counterexample :
    detectContext "doctor patient hospital lesson" = "school" ∧
    sceneScore schoolKeywords (lowerStr "doctor patient hospital lesson") = 1 ∧
    sceneScore medicalKeywords (lowerStr "doctor patient hospital lesson") = 3 := by
  decide

/-- C3 (corrected): a raised exception on any turn — or an all-empty
ChatTTS run — abandons the generative backend and restarts the complete
turn list on the networked backend, and the assembled segments always
come from a single backend; but a turn returning empty audio while
other turns succeed is merely skipped, and the job stays on the
generative backend with the remaining segments. -/
theorem C3_backend_fallback :
    ∀ (parts : List (String × String)) (f : Nat → TurnOut) (g : Nat → Bool),
      (∀ segs, generateWithChatts parts f g = .done segs →
        (∀ x ∈ segs, x.1 = BackendTag.chatts) ∨
        (∀ x ∈ segs, x.1 = BackendTag.edge)) ∧
      (chattsLoop parts 0 f = .error () →
        generateWithChatts parts f g = generateWithEdgeTts parts g) ∧
      (∀ segs, generateWithEdgeTts parts g = .done segs →
        segs.length = parts.length) := by
  intro parts f g
  refine ⟨?_, ?_, ?_⟩
  · intro segs h
    unfold generateWithChatts at h
    cases hcl : chattsLoop parts 0 f with
    | error e =>
      rw [hcl] at h
      exact Or.inr (edgeDone_tags parts g segs h)
    | ok raw =>
      rw [hcl] at h
      have h' : (if raw.isEmpty = true then generateWithEdgeTts parts g
          else JobOutcome.done (raw.map (fun a => (BackendTag.chatts, a)))) =
          JobOutcome.done segs := h
      by_cases hemp : raw.isEmpty = true
      · rw [if_pos hemp] at h'
        exact Or.inr (edgeDone_tags parts g segs h')
      · rw [if_neg hemp] at h'
        simp only [JobOutcome.done.injEq] at h'
        left
        intro x hx
        rw [← h'] at hx
        obtain ⟨a, _, rfl⟩ := List.mem_map.mp hx
        rfl
  · intro h
    unfold generateWithChatts
    rw [h]
  · exact edgeDone_length parts g

/-- Witness for C3: a job whose first turn raises restarts on the
networked backend. -/
theorem C3_backend_fallback_witness :
    generateWithChatts [("M", "x")] (fun _ => TurnOut.err) (fun _ => true) =
      generateWithEdgeTts [("M", "x")] (fun _ => true) :=
  (C3_backend_fallback [("M", "x")] (fun _ => TurnOut.err) (fun _ => true)).2.1
    rfl

/-- Counterexample for C3 as stated: the second turn returns empty
audio, yet the generative backend is not abandoned — the job completes
on ChatTTS with the empty turn silently dropped. -/
theorem C3_backend_fallback_counterexample :
    generateWithChatts [("M", "hi"), ("W", "yo")]
        (fun i => if i = 0 then TurnOut.ok 7 else TurnOut.empty)
        (fun _ => true) =
      JobOutcome.done [(BackendTag.chatts, 7)] := by
  decide

/-- C4 (corrected): on the networked backend every one of the N turns
yields exactly one segment, in turn order; on the generative backend
the pre-assembly segment list contains, in turn order, one segment per
turn whose inference returned non-empty audio — which can be fewer than
N when empty turns are skipped.  Assembly concatenates the resulting
list in order in both cases. -/
theorem C4_segment_counts :
    ∀ (parts : List (String × String)) (f : Nat → TurnOut) (g : Nat → Bool),
      (∀ segs, generateWithEdgeTts parts g = .done segs →
        segs = (List.range parts.length).map (fun i => (BackendTag.edge, i))) ∧
      (∀ raw, chattsLoop parts 0 f = .ok raw →
        raw = (List.range parts.length).filterMap
          (fun j => match f j with | TurnOut.ok a => some a | _ => none)) := by
  intro parts f g
  constructor
  · intro segs h
    unfold generateWithEdgeTts at h
    cases hel : edgeLoop parts 0 g with
    | none => rw [hel] at h; simp at h
    | some s =>
      rw [hel] at h
      simp only [JobOutcome.done.injEq] at h
      rw [← h, edgeLoop_eq_range parts 0 g s hel, List.range_eq_range']
  · intro raw h
    rw [chattsLoop_eq_filterMap parts 0 f raw h, List.range_eq_range']

/-- Witness for C4: a concrete two-turn networked run produces exactly
two segments in turn order. -/
theorem C4_segment_counts_witness :
    generateWithEdgeTts [("M", "x"), ("W", "y")] (fun _ => true) =
      JobOutcome.done [(BackendTag.edge, 0), (BackendTag.edge, 1)] ∧
    [(BackendTag.edge, 0), (BackendTag.edge, 1)] =
      (List.range ([("M", "x"), ("W", "y")] : List (String × String)).length).map
        (fun i => (BackendTag.edge, i)) := by
  constructor
  · decide
  · exact (C4_segment_counts [("M", "x"), ("W", "y")] (fun _ => TurnOut.err)
      (fun _ => true)).1 [(BackendTag.edge, 0), (BackendTag.edge, 1)] (by decide)

/-- Counterexample for C4 as stated: three recognized turns, but only
two segments exist before assembly because the middle turn returned
empty audio on the generative backend. -/
theorem C4_segment_counts_counterexample :
    generateWithChatts [("A", "x"), ("B", "y"), ("M", "z")]
        (fun i => if i = 0 then TurnOut.ok 1
          else if i = 1 then TurnOut.empty else TurnOut.ok 3)
        (fun _ => true) =
      JobOutcome.done [(BackendTag.chatts, 1), (BackendTag.chatts, 3)] ∧
    ([("A", "x"), ("B", "y"), ("M", "z")] : List (String × String)).length = 3 := by
  decide

/-- C5 (corrected): a line opens a new turn exactly when it consists of
one uppercase letter followed by zero or more lowercase letters, a
colon, and at least one further character (whitespace after the colon
is optional and stripped from the utterance); two uppercase letters
never match.  Non-marker lines are appended to the open turn when one
exists and dropped otherwise, and an input with no marker at all parses
to the empty turn list rather than an error. -/
theorem C5_parser_markers :
    (∀ line : List Char,
      (∃ sp txt, matchMarker line = some (sp, txt)) ↔
      (∃ u ls rest, isUpperAZ u = true ∧ ls.all isLowerAZ = true ∧ rest ≠ [] ∧
        line = u :: (ls ++ ':' :: rest))) ∧
    (∀ script : String,
      (∀ l ∈ splitLines (pyStrip script.data), matchMarker (pyStrip l) = none) →
      parseDialogueS script = []) := by
  constructor
  · exact matchMarker_eq_some_iff
  · intro script h
    simp [parseDialogueS, parseDialogue, parseLoop_no_marker _ h]

/-- Witness for C5: a marker-free input parses to the empty list. -/
theorem C5_parser_markers_witness :
    parseDialogueS "hello there\nno markers at all" = [] :=
  C5_parser_markers.2 "hello there\nno markers at all" (by decide)

/-- Counterexample for C5 as stated: a leading token of two uppercase
letters followed by a colon and whitespace does not open a turn (the
parse is empty), while a marker with no whitespace after the colon
does open one. -/
theorem C5_parser_markers_counterexample :
    parseDialogueS "XY: hello" = [] ∧
    parseDialogueS "M:hello" = [("M", "hello")] := by
  decide

/-- C6 (corrected): within one generative-backend job each distinct
speaker label gets exactly one embedding, seeded `1000 + i * 1000`
where `i` is the position of the label in the arbitrary duplicate-free
enumeration produced by `list(set(...))` — not necessarily the index of
first appearance; for every admissible enumeration a label occurring at
turn positions i < j renders with the same embedding at both
positions. -/
theorem C6_speaker_embedding_consistency :
    ∀ (parts : List (String × String)) (order : List String),
      validSpeakerOrder parts order →
      (∀ (i : Nat) (hi : i < order.length),
        (speakerEmbs order 0).lookup (order.get ⟨i, hi⟩) =
          some (1000 + i * 1000)) ∧
      (∀ (i j : Nat) (hi : i < parts.length) (hj : j < parts.length),
        (parts.get ⟨i, hi⟩).1 = (parts.get ⟨j, hj⟩).1 →
        (chattsEmbSeq parts order).getD i 0 =
          (chattsEmbSeq parts order).getD j 0) := by
  intro parts order hv
  constructor
  · intro i hi
    have h := lookup_speakerEmbs_get order 0 hv.1 i hi
    simpa using h
  · intro i j hi hj heq
    rw [chattsEmbSeq_getD parts order i hi, chattsEmbSeq_getD parts order j hj,
      heq]

/-- Witness for C6: the second enumerated speaker of a concrete job
gets seed 2000. -/
theorem C6_speaker_embedding_consistency_witness :
    (speakerEmbs ["M", "W"] 0).lookup "W" = some 2000 := by
  have h := (C6_speaker_embedding_consistency [("M", "a"), ("W", "b")]
    ["M", "W"] (by decide)).1 1 (by decide)
  simpa using h

/-- Counterexample for C6 as stated: both `["W", "M"]` and `["M", "W"]`
are admissible `list(set(...))` enumerations of the same two-turn job,
and they give the label M (first-appearance index 0) two different
seeds — the seed is not a deterministic function of the index of first
appearance. -/
theorem C6_speaker_embedding_consistency_counterexample :
    validSpeakerOrder [("M", "hello"), ("W", "hi")] ["W", "M"] ∧
    validSpeakerOrder [("M", "hello"), ("W", "hi")] ["M", "W"] ∧
    (speakerEmbs ["W", "M"] 0).lookup "M" = some 2000 ∧
    (speakerEmbs ["M", "W"] 0).lookup "M" = some 1000 := by
  decide

/-- C7 (corrected): the school-scene rule profiler tests its phrase
sets against the lowercased space-join of the parsed utterances, not
against the raw script.  On that joined text: a student-referencing
phrase with no teacher-speaking phrase makes every speaker young and
casual; when a teacher-speaking phrase is present, exactly the speakers
one of whose own utterances contains a teacher-speaking phrase get the
adult professional voice and every other speaker gets the young casual
voice. -/
theorem C7_school_rule_profiler :
    ∀ (parts : List (String × String)) (speakers : List String),
      validSpeakerOrder parts speakers →
      ((hasAnyPattern studentTalkingAboutTeacher (joinTextsLower parts) = true ∧
        hasAnyPattern teacherSpeakingPatterns (joinTextsLower parts) = false) →
        ∀ s ∈ speakers,
          (assignVoicesByContext parts "school" none speakers).lookup s =
            some (youngVoiceFor s)) ∧
      (hasAnyPattern teacherSpeakingPatterns (joinTextsLower parts) = true →
        ∀ s : String,
          (parts.any (fun p => p.1 == s &&
              hasAnyPattern teacherSpeakingPatterns (lowerStr p.2)) = true →
            (assignVoicesByContext parts "school" none speakers).lookup s =
              some (profVoiceFor s)) ∧
          (parts.any (fun p => p.1 == s &&
              hasAnyPattern teacherSpeakingPatterns (lowerStr p.2)) = false →
            s ∈ speakers →
            (assignVoicesByContext parts "school" none speakers).lookup s =
              some (youngVoiceFor s))) := by
  intro parts speakers hv
  constructor
  · rintro ⟨h1, h2⟩ s hs
    have hcond : (hasAnyPattern studentTalkingAboutTeacher (joinTextsLower parts) &&
        !hasAnyPattern teacherSpeakingPatterns (joinTextsLower parts)) = true := by
      rw [h1, h2]
      rfl
    have hbranch : assignVoicesByContext parts "school" none speakers =
        assignForAll youngVoiceFor speakers [] := by
      simp [assignVoicesByContext, isTruthyMap, hcond]
    rw [hbranch, lookup_assignForAll youngVoiceFor speakers [] s]
    simp [hs]
  · intro ht s
    have hcond : (hasAnyPattern studentTalkingAboutTeacher (joinTextsLower parts) &&
        !hasAnyPattern teacherSpeakingPatterns (joinTextsLower parts)) = false := by
      rw [ht]
      simp
    have hbranch : assignVoicesByContext parts "school" none speakers =
        teacherLoop parts [] := by
      simp [assignVoicesByContext, isTruthyMap, hcond, ht]
    constructor
    · intro hpatany
      rw [hbranch, lookup_teacherLoop parts [] s]
      simp [hpatany]
    · intro hpatany hs
      have hmem : parts.any (fun p => p.1 == s) = true := by
        have hmap : s ∈ parts.map Prod.fst := hv.2.1 s hs
        simp only [List.any_eq_true]
        obtain ⟨p, hp, hps⟩ := List.mem_map.mp hmap
        exact ⟨p, hp, by simp [hps]⟩
      rw [hbranch, lookup_teacherLoop parts [] s]
      simp [hpatany, hmem, List.lookup]

/-- Witness for C7: with a teacher-speaking phrase in the first turn, M
resolves to the adult professional voice and W to the young casual
voice. -/
theorem C7_school_rule_profiler_witness :
    (assignVoicesByContext [("M", "Open your books now"), ("W", "Yes sir")]
        "school" none ["M", "W"]).lookup "M" = some "en-US-BrianNeural" ∧
    (assignVoicesByContext [("M", "Open your books now"), ("W", "Yes sir")]
        "school" none ["M", "W"]).lookup "W" = some "en-US-MichelleNeural" := by
  have h := (C7_school_rule_profiler
    [("M", "Open your books now"), ("W", "Yes sir")] ["M", "W"]
    (by decide)).2 (by decide)
  constructor
  · have h1 := (h "M").1 (by decide)
    rw [h1]
    decide
  · have h2 := (h "W").2 (by decide) (by decide)
    rw [h2]
    decide

/-- Counterexample for C7 as stated: in this script the raw text
contains the student-referencing phrase "my teacher" and no
teacher-speaking phrase (the phrase "i want you to" is split across a
line break), so the claim predicts young voices for everyone; but the
parser space-joins the continuation line into the first utterance, the
joined text does contain "i want you to", and M is assigned the adult
professional voice. -/
theorem C7_school_rule_profiler_counterexample :
    parseDialogueS "M: I want\nyou to school\nW: My teacher is nice." =
      [("M", "I want you to school"), ("W", "My teacher is nice.")] ∧
    detectContext "M: I want\nyou to school\nW: My teacher is nice." = "school" ∧
    hasAnyPattern studentTalkingAboutTeacher
      (lowerStr "M: I want\nyou to school\nW: My teacher is nice.") = true ∧
    hasAnyPattern teacherSpeakingPatterns
      (lowerStr "M: I want\nyou to school\nW: My teacher is nice.") = false ∧
    (assignVoicesByContext
        [("M", "I want you to school"), ("W", "My teacher is nice.")]
        "school" none ["M", "W"]).lookup "M" = some "en-US-BrianNeural" ∧
    ("en-US-BrianNeural" : String) ≠ "en-US-EricNeural" := by
  decide

/-- C8 (corrected): the role tag of an accepted AI profile is read but
never consulted — profile-based voice selection depends only on the
age group, gender and emotion fields, and an "adult" category is kept
even when the role tag names a child or student. -/
theorem C8_role_ignored :
    ∀ (a g r r' e : Option String),
      mapProfileToVoice ⟨a, g, r, e⟩ = mapProfileToVoice ⟨a, g, r', e⟩ := by
  intro a g r r' e
  rfl

/-- Counterexample for C8 as stated: an adult male profile whose role is
"student" keeps the adult warm voice instead of being downgraded to the
young casual voice `en-US-EricNeural`. -/
theorem C8_role_ignored_counterexample :
    (assignVoicesByProfiles
        [("M", ⟨some "adult", some "male", some "student", some "casual"⟩)]).lookup
      "M" = some "en-US-ChristopherNeural" ∧
    ("en-US-ChristopherNeural" : String) ≠ "en-US-EricNeural" := by
  decide

/-- C9 (confirmed): a script on which the parser recognizes zero turns
is routed to the single-voice plain-synthesis path before context
detection or any voice assignment runs, for every profiling outcome and
caller override. -/
theorem C9_empty_parse_plain_path :
    ∀ (script : String) (ai : Option (List (String × Profile)))
      (vm : Option (List (String × String))) (speakers : List String),
      parseDialogueS script = [] →
      dialogueToSpeechPlan script ai vm speakers =
        SynthesisPlan.plainTTS script := by
  intro script ai vm speakers h
  simp [dialogueToSpeechPlan, h]

/-- Witness for C9: a plain sentence with no speaker markers takes the
plain-synthesis path. -/
theorem C9_empty_parse_plain_path_witness :
    dialogueToSpeechPlan "Just a plain sentence." none none [] =
      SynthesisPlan.plainTTS "Just a plain sentence." :=
  C9_empty_parse_plain_path "Just a plain sentence." none none [] (by decide)

/-- C10 (confirmed): per-turn rendering is total over speaker labels —
the networked path falls back to the fixed default voice
en-US-AriaNeural for a label missing from the voice map, and the
generative path has an embedding for every label of the job, defaulting
to the first enumerated speaker (seed 1000) for a label outside the
embedding table. -/
theorem C10_render_total_defaults :
    (∀ (voices : List (String × String)) (s : String),
      (voices.lookup s = none → edgeVoiceFor voices s = "en-US-AriaNeural") ∧
      (∀ v, voices.lookup s = some v → edgeVoiceFor voices s = v)) ∧
    (∀ (parts : List (String × String)) (order : List String),
      validSpeakerOrder parts order →
      ∀ p ∈ parts, ((speakerEmbs order 0).lookup p.1).isSome = true) ∧
    (∀ (s0 : String) (rest : List String) (s : String),
      (speakerEmbs (s0 :: rest) 0).lookup s = none →
      chattsEmbFor (s0 :: rest) s = 1000) := by
  refine ⟨?_, ?_, ?_⟩
  · intro voices s
    constructor
    · intro h
      simp [edgeVoiceFor, h]
    · intro v h
      simp [edgeVoiceFor, h]
  · intro parts order hv p hp
    exact lookup_speakerEmbs_mem order 0 p.1
      (hv.2.2 p.1 (List.mem_map.mpr ⟨p, hp, rfl⟩))
  · intro s0 rest s h
    simp only [chattsEmbFor, h, Option.getD_none, List.headD]
    simp only [speakerEmbs]
    rw [lookup_cons_self]
    simp

/-- Witness for C10: a label missing from the voice map renders with
the default networked voice. -/
theorem C10_render_total_defaults_witness :
    edgeVoiceFor [("M", "x")] "W" = "en-US-AriaNeural" :=
  (C10_render_total_defaults.1 [("M", "x")] "W").1 (by decide)

end TeacherQR
